import Mathlib

/-!
A verification development for the service module of `secret2830/service`.

The definitions below are a shallow embedding of the Go source:

* `src/types/invocation.go` — identifier codec (`GenerateRequestContextID`,
  `SplitRequestContextID`, `GenerateRequestID`, `SplitRequestID`), the
  request-context record and its states, and the JSON (un)marshalling of
  the state enums.
* `src/unnamed/part_000` — the pure validation rules
  (`ValidateServiceName`, `ValidateRequest`, `ValidateRequestContextUpdating`,
  `ValidateOutput`, provider-list validation, ...).

Modelling conventions:

* Go byte slices are `List Nat` (each element a byte value).
* Go `uint64`/`uint16` are `Nat`, restricted by hypotheses where a theorem
  depends on the machine range; Go `int64`/`int16` are `Int`, likewise
  restricted; the two's-complement casts `uint64(i)`, `int64(u)`, ... are
  the explicit `% 2^w` conversions defined below.
* A Go function returning `error` returns `Option ErrKind` (`none` = `nil`);
  errors are modelled by their kind (the wrapped sdk error value), the
  formatted message strings are elided.
* External collaborators (the cosmos-sdk coin type, bech32 address
  rendering, and `encoding/json`) are modelled by concrete executable
  functions marked as such in their doc comments.
-/

namespace Service

/-! ## Machine-integer conversions (two's complement) -/

/-- Go `uint64(i)` applied to an `int64` value: reduce modulo `2 ^ 64`. -/
def uint64OfInt64 (i : Int) : Nat :=
  (i % 18446744073709551616).toNat

/-- Go `int64(u)` applied to a `uint64` value: two's-complement
reinterpretation. -/
def int64OfUint64 (u : Nat) : Int :=
  if u < 9223372036854775808 then (u : Int) else (u : Int) - 18446744073709551616

/-- Go `uint16(i)` applied to an `int16` value: reduce modulo `2 ^ 16`. -/
def uint16OfInt16 (i : Int) : Nat :=
  (i % 65536).toNat

/-- Go `int16(u)` applied to a `uint16` value: two's-complement
reinterpretation. -/
def int16OfUint16 (u : Nat) : Int :=
  if u < 32768 then (u : Int) else (u : Int) - 65536

theorem uint64OfInt64_lt (i : Int) : uint64OfInt64 i < 18446744073709551616 := by
  unfold uint64OfInt64; omega

theorem int64_roundtrip (i : Int) (hlo : -9223372036854775808 ≤ i)
    (hhi : i < 9223372036854775808) : int64OfUint64 (uint64OfInt64 i) = i := by
  unfold int64OfUint64 uint64OfInt64
  split <;> omega

theorem uint16OfInt16_lt (i : Int) : uint16OfInt16 i < 65536 := by
  unfold uint16OfInt16; omega

theorem int16_roundtrip (i : Int) (hlo : -32768 ≤ i) (hhi : i < 32768) :
    int16OfUint16 (uint16OfInt16 i) = i := by
  unfold int16OfUint16 uint16OfInt16
  split <;> omega

/-! ## Big-endian byte encoding (`encoding/binary` BigEndian) -/

/-- Big-endian encoding of `n` into `k` bytes (`binary.BigEndian.PutUint64`
is `beBytes 8`, `PutUint16` is `beBytes 2`); encodes `n % 256 ^ k`. -/
def beBytes : Nat → Nat → List Nat
  | 0, _ => []
  | k + 1, n => beBytes k (n / 256) ++ [n % 256]

/-- Big-endian decoding of a byte list (`binary.BigEndian.Uint64` on an
8-byte slice, `Uint16` on a 2-byte slice). -/
def beUint (l : List Nat) : Nat :=
  l.foldl (fun acc b => acc * 256 + b) 0

@[simp] theorem beBytes_length (k n : Nat) : (beBytes k n).length = k := by
  induction k generalizing n with
  | zero => rfl
  | succ k ih => simp [beBytes, ih]

theorem beUint_append_singleton (l : List Nat) (b : Nat) :
    beUint (l ++ [b]) = beUint l * 256 + b := by
  simp [beUint, List.foldl_append]

theorem beUint_beBytes (k n : Nat) : beUint (beBytes k n) = n % 256 ^ k := by
  induction k generalizing n with
  | zero => simp [beBytes, beUint, Nat.mod_one]
  | succ k ih =>
    rw [beBytes, beUint_append_singleton, ih]
    have h256 : (256 : Nat) ^ (k + 1) = 256 * 256 ^ k := by ring
    rw [h256, Nat.mod_mul]
    ring

theorem beUint_beBytes_of_lt (k n : Nat) (h : n < 256 ^ k) :
    beUint (beBytes k n) = n := by
  rw [beUint_beBytes, Nat.mod_eq_of_lt h]

/-! ## Identifier codec (`src/types/invocation.go`) -/

/-- `RequestIDLen = 58` from the source. -/
def RequestIDLen : Nat := 58

/-- `ContextIDLen = 40` from the source. -/
def ContextIDLen : Nat := 40

/-- `GenerateRequestContextID(txHash, msgIndex)`: `txHash` followed by the
big-endian 8-byte encoding of `uint64(msgIndex)`. -/
def GenerateRequestContextID (txHash : List Nat) (msgIndex : Int) : List Nat :=
  txHash ++ beBytes 8 (uint64OfInt64 msgIndex)

/-- `SplitRequestContextID(contextID)`: fails unless the ID has length 40,
then returns bytes 0–31 as the transaction hash and bytes 32–39 decoded
big-endian and cast to `int64` as the message index. -/
def SplitRequestContextID (contextID : List Nat) : Option (List Nat × Int) :=
  if contextID.length = ContextIDLen then
    some (contextID.take 32, int64OfUint64 (beUint (contextID.drop 32)))
  else
    none

/-- `GenerateRequestID(requestContextID, batchCounter, requestHeight,
batchRequestIndex)`: the context ID followed by 8-byte big-endian
`batchCounter`, 8-byte big-endian `uint64(requestHeight)` and 2-byte
big-endian `uint16(batchRequestIndex)`. -/
def GenerateRequestID (requestContextID : List Nat) (batchCounter : Nat)
    (requestHeight : Int) (batchRequestIndex : Int) : List Nat :=
  requestContextID ++ beBytes 8 batchCounter
    ++ beBytes 8 (uint64OfInt64 requestHeight)
    ++ beBytes 2 (uint16OfInt16 batchRequestIndex)

/-- `SplitRequestID(requestID)`: fails unless the ID has length 58, then
returns bytes 0–39 as the context ID, bytes 40–47 as the batch counter,
bytes 48–55 (cast to `int64`) as the request height and bytes 56–57
(cast to `int16`) as the batch-local request index. -/
def SplitRequestID (requestID : List Nat) :
    Option (List Nat × Nat × Int × Int) :=
  if requestID.length = RequestIDLen then
    some (requestID.take 40,
          beUint ((requestID.drop 40).take 8),
          int64OfUint64 (beUint ((requestID.drop 48).take 8)),
          int16OfUint16 (beUint (requestID.drop 56)))
  else
    none

theorem contextID_roundtrip (h : List Nat) (i : Int) (hlen : h.length = 32)
    (hlo : -9223372036854775808 ≤ i) (hhi : i < 9223372036854775808) :
    SplitRequestContextID (GenerateRequestContextID h i) = some (h, i) := by
  have hlt : uint64OfInt64 i < 256 ^ 8 := uint64OfInt64_lt i
  have hl : (GenerateRequestContextID h i).length = ContextIDLen := by
    simp [GenerateRequestContextID, hlen, ContextIDLen]
  rw [SplitRequestContextID, if_pos hl, GenerateRequestContextID,
    List.take_left' hlen, List.drop_left' hlen,
    beUint_beBytes_of_lt _ _ hlt, int64_roundtrip i hlo hhi]

theorem requestID_roundtrip (c : List Nat) (b : Nat) (ht : Int) (idx : Int)
    (hlen : c.length = 40) (hb : b < 18446744073709551616)
    (hlo : -9223372036854775808 ≤ ht) (hhi : ht < 9223372036854775808)
    (ilo : -32768 ≤ idx) (ihi : idx < 32768) :
    SplitRequestID (GenerateRequestID c b ht idx) = some (c, b, ht, idx) := by
  have hbu : beUint (beBytes 8 b) = b := beUint_beBytes_of_lt 8 b hb
  have hhu : beUint (beBytes 8 (uint64OfInt64 ht)) = uint64OfInt64 ht :=
    beUint_beBytes_of_lt 8 _ (uint64OfInt64_lt ht)
  have hiu : beUint (beBytes 2 (uint16OfInt16 idx)) = uint16OfInt16 idx :=
    beUint_beBytes_of_lt 2 _ (uint16OfInt16_lt idx)
  have hid : GenerateRequestID c b ht idx
      = c ++ (beBytes 8 b ++ beBytes 8 (uint64OfInt64 ht)
          ++ beBytes 2 (uint16OfInt16 idx)) := by
    simp [GenerateRequestID, List.append_assoc]
  have hl : (GenerateRequestID c b ht idx).length = RequestIDLen := by
    simp [GenerateRequestID, hlen, RequestIDLen]
  have hdrop40 : (GenerateRequestID c b ht idx).drop 40
      = beBytes 8 b ++ beBytes 8 (uint64OfInt64 ht)
          ++ beBytes 2 (uint16OfInt16 idx) := by
    rw [hid, List.drop_left' hlen]
  have htake40 : (GenerateRequestID c b ht idx).take 40 = c := by
    rw [hid, List.take_left' hlen]
  have hdrop48 : (GenerateRequestID c b ht idx).drop 48
      = beBytes 8 (uint64OfInt64 ht) ++ beBytes 2 (uint16OfInt16 idx) := by
    have hlen48 : (c ++ beBytes 8 b).length = 48 := by simp [hlen]
    have hid' : GenerateRequestID c b ht idx
        = (c ++ beBytes 8 b)
            ++ (beBytes 8 (uint64OfInt64 ht) ++ beBytes 2 (uint16OfInt16 idx)) := by
      simp [GenerateRequestID, List.append_assoc]
    rw [hid', List.drop_left' hlen48]
  have hdrop56 : (GenerateRequestID c b ht idx).drop 56
      = beBytes 2 (uint16OfInt16 idx) := by
    have hlen56 : (c ++ beBytes 8 b ++ beBytes 8 (uint64OfInt64 ht)).length = 56 := by
      simp [hlen]
    have hid' : GenerateRequestID c b ht idx
        = (c ++ beBytes 8 b ++ beBytes 8 (uint64OfInt64 ht))
            ++ beBytes 2 (uint16OfInt16 idx) := by
      simp [GenerateRequestID, List.append_assoc]
    rw [hid', List.drop_left' hlen56]
  have htk8 : (beBytes 8 b ++ beBytes 8 (uint64OfInt64 ht)
      ++ beBytes 2 (uint16OfInt16 idx)).take 8 = beBytes 8 b := by
    rw [List.append_assoc]
    exact List.take_left' (beBytes_length 8 b)
  have htk8' : (beBytes 8 (uint64OfInt64 ht) ++ beBytes 2 (uint16OfInt16 idx)).take 8
      = beBytes 8 (uint64OfInt64 ht) :=
    List.take_left' (beBytes_length 8 _)
  rw [SplitRequestID, if_pos hl, htake40, hdrop40, hdrop48, hdrop56, htk8, htk8',
    hbu, hhu, hiu, int64_roundtrip ht hlo hhi, int16_roundtrip idx ilo ihi]

/-! ## Error kinds (`src/unnamed/part_000` wraps these sdk / module errors) -/

/-- The error kinds wrapped by the validators in `src/unnamed/part_000`.
Constructors named after the `Err...` values the source wraps
(`sdkerrors.ErrInvalidAddress`, `ErrInvalidServiceName`, ...); the
formatted message strings are elided. -/
inductive ErrKind where
  | invalidAddress
  | invalidServiceName
  | invalidDescription
  | invalidTags
  | invalidCoins
  | invalidMinRespTime
  | invalidPricing
  | invalidProviders
  | invalidRequest
  | invalidRequestInput
  | invalidResponse
  | invalidTimeout
  | invalidRepeatedFreq
  | invalidRepeatedTotal
  | invalidRequestID
  | invalidRequestContextID
  | invalidResponseResult
  deriving DecidableEq, Repr

/-! ## External cosmos-sdk coin model

The spec treats the token/coin type system as an opaque external service;
the definitions below model `sdk.Coin`/`sdk.Coins` just far enough for the
validators that consume them (`IsValid`, `Empty`). -/

/-- Models the external `sdk.Coin`: a denomination and an amount. -/
structure Coin where
  denom : String
  amount : Int
  deriving DecidableEq, Repr

/-- Models the external `sdk.Coins`: a list of coins. -/
abbrev Coins := List Coin

/-- Models the external denomination well-formedness check: first character
a lowercase letter, remaining characters lowercase alphanumeric or `/`,
length between 3 and 16. -/
def validDenom (d : String) : Bool :=
  match d.toList with
  | [] => false
  | c :: rest =>
    c.isLower && rest.all (fun e => e.isLower || e.isDigit || e = '/')
      && 3 ≤ d.length && d.length ≤ 16

/-- Models the tail of the external `sdk.Coins.IsValid` loop: every coin has
a well-formed denomination strictly above the previous one and a positive
amount. -/
def coinsSortedValid : String → List Coin → Bool
  | _, [] => true
  | low, c :: rest =>
    validDenom c.denom && decide (low < c.denom) && decide (0 < c.amount)
      && coinsSortedValid c.denom rest

/-- Models the external `sdk.Coins.IsValid`: an empty coin set is valid; a
non-empty one must have well-formed denominations in strictly increasing
order, each with a positive amount. -/
def Coins.IsValid : Coins → Bool
  | [] => true
  | c :: rest =>
    validDenom c.denom && decide (0 < c.amount) && coinsSortedValid c.denom rest

/-- Models the external `sdk.Coins.Empty`: no coins. -/
def Coins.Empty (coins : Coins) : Bool :=
  coins.isEmpty

/-! ## Addresses -/

/-- Models the external `sdk.AccAddress`: a byte string. -/
abbrev AccAddress := List Nat

/-- Models the external bech32 `AccAddress.String()` rendering used by the
duplicate-provider check; an injective rendering of the address bytes. -/
def AccAddress.toStr (a : AccAddress) : String :=
  toString a

/-- Modelled from the spec: the helper `HasDuplicate` (not under `src/`,
called by `ValidateTags` and `checkDuplicateProviders`) reports whether the
given string slice contains a repeated element. -/
def HasDuplicate : List String → Bool
  | [] => false
  | x :: rest => rest.contains x || HasDuplicate rest

theorem hasDuplicate_eq_false_iff (xs : List String) :
    HasDuplicate xs = false ↔ xs.Nodup := by
  induction xs with
  | nil => simp [HasDuplicate]
  | cons x rest ih =>
    simp [HasDuplicate, List.nodup_cons, ih, List.contains_eq_any_beq]

/-! ## Validation rules (`src/unnamed/part_000`) -/

/-- `MaxNameLength = 70` from the source. -/
def MaxNameLength : Nat := 70

/-- `MaxProvidersNum = 10` from the source. -/
def MaxProvidersNum : Nat := 10

/-- The regular expression `reServiceName = ^[a-zA-Z][a-zA-Z0-9_-]*$` as a
whole-string matcher: a leading ASCII letter followed by ASCII letters,
digits, `_` or `-`. -/
def reServiceNameMatch (s : String) : Bool :=
  match s.toList with
  | [] => false
  | c :: rest => c.isAlpha && rest.all (fun d => d.isAlpha || d.isDigit || d = '_' || d = '-')

/-- `ValidateServiceName(name)`: rejects with `ErrInvalidServiceName` when
the name does not match `reServiceName` or its byte length exceeds
`MaxNameLength`. -/
def ValidateServiceName (name : String) : Option ErrKind :=
  if !reServiceNameMatch name || name.utf8ByteSize > MaxNameLength then
    some .invalidServiceName
  else
    none

/-- `checkDuplicateProviders(providers)`: renders each provider address to
its string form and rejects with `ErrInvalidProviders` on a duplicate. -/
def checkDuplicateProviders (providers : List AccAddress) : Option ErrKind :=
  if HasDuplicate (providers.map AccAddress.toStr) then
    some .invalidProviders
  else
    none

/-- `ValidateProvidersNoEmpty(providers)`: providers must be non-empty, at
most `MaxProvidersNum`, and duplicate-free (count failures wrap
`sdkerrors.ErrInvalidRequest`). -/
def ValidateProvidersNoEmpty (providers : List AccAddress) : Option ErrKind :=
  if providers.length = 0 then
    some .invalidRequest
  else if providers.length > MaxProvidersNum then
    some .invalidRequest
  else
    checkDuplicateProviders providers

/-- `ValidateProvidersCanEmpty(providers)`: at most `MaxProvidersNum`
providers (wrapping `ErrInvalidProviders` on excess), duplicate-checked
only when non-empty. -/
def ValidateProvidersCanEmpty (providers : List AccAddress) : Option ErrKind :=
  if providers.length > MaxProvidersNum then
    some .invalidProviders
  else if providers.length > 0 then
    checkDuplicateProviders providers
  else
    none

/-- `ValidateServiceFeeCap(serviceFeeCap)`: the fee cap must be a valid
coin set (wrapping `sdkerrors.ErrInvalidRequest` otherwise). -/
def ValidateServiceFeeCap (serviceFeeCap : Coins) : Option ErrKind :=
  if !Coins.IsValid serviceFeeCap then
    some .invalidRequest
  else
    none

/-! ## JSON validity (models the external `encoding/json.Valid`)

A recursive-descent checker for RFC 8259 JSON text. The mutually
recursive value/object/array parsers are written with explicit fuel;
every recursive call consumes fuel, and at most four calls happen per
input character, so the fuel `4 * length + 16` supplied by `jsonValid`
is always sufficient. -/

/-- JSON insignificant whitespace. -/
def isJsonWs (c : Char) : Bool :=
  c = ' ' || c = '\t' || c = '\n' || c = '\r'

/-- Skip insignificant whitespace. -/
def skipWs (s : List Char) : List Char :=
  s.dropWhile isJsonWs

/-- Hexadecimal digit, for `\u` escapes. -/
def isHexDigitChar (c : Char) : Bool :=
  c.isDigit || ('a' ≤ c && c ≤ 'f') || ('A' ≤ c && c ≤ 'F')

/-- Scan the remainder of a JSON string after the opening quote; returns
the input after the closing quote, or `none` on a malformed string. -/
def scanStringRest : List Char → Option (List Char)
  | [] => none
  | c :: rest =>
    if c = '"' then some rest
    else if c = '\\' then
      match rest with
      | [] => none
      | e :: rest₂ =>
        if e = '"' || e = '\\' || e = '/' || e = 'b' || e = 'f'
            || e = 'n' || e = 'r' || e = 't' then
          scanStringRest rest₂
        else if e = 'u' then
          match rest₂ with
          | h₁ :: h₂ :: h₃ :: h₄ :: rest₃ =>
            if isHexDigitChar h₁ && isHexDigitChar h₂
                && isHexDigitChar h₃ && isHexDigitChar h₄ then
              scanStringRest rest₃
            else none
          | _ => none
        else none
    else if c.toNat < 32 then none
    else scanStringRest rest

/-- Scan an optional JSON exponent part. -/
def scanExpPart (s : List Char) : Option (List Char) :=
  match s with
  | c :: rest =>
    if c = 'e' || c = 'E' then
      let rest₂ :=
        match rest with
        | c₂ :: r₂ => if c₂ = '+' || c₂ = '-' then r₂ else rest
        | [] => []
      match rest₂ with
      | d :: _ => if d.isDigit then some (rest₂.dropWhile Char.isDigit) else none
      | [] => none
    else some s
  | [] => some []

/-- Scan an optional JSON fraction part followed by an optional exponent. -/
def scanFracPart (s : List Char) : Option (List Char) :=
  match s with
  | '.' :: rest =>
    match rest with
    | d :: _ => if d.isDigit then scanExpPart (rest.dropWhile Char.isDigit) else none
    | [] => none
  | _ => scanExpPart s

/-- Scan a JSON number (`-?(0|[1-9][0-9]*)(\.[0-9]+)?([eE][+-]?[0-9]+)?`). -/
def scanNumber (s : List Char) : Option (List Char) :=
  let s₁ := match s with
    | c :: rest => if c = '-' then rest else s
    | [] => []
  match s₁ with
  | [] => none
  | c :: rest =>
    if c = '0' then scanFracPart rest
    else if c.isDigit then scanFracPart (rest.dropWhile Char.isDigit)
    else none

mutual

/-- Parse one JSON value, returning the unconsumed remainder. -/
def parseJsonValue : Nat → List Char → Option (List Char)
  | 0, _ => none
  | fuel + 1, s =>
    match s with
    | 'n' :: 'u' :: 'l' :: 'l' :: rest => some rest
    | 't' :: 'r' :: 'u' :: 'e' :: rest => some rest
    | 'f' :: 'a' :: 'l' :: 's' :: 'e' :: rest => some rest
    | '"' :: rest => scanStringRest rest
    | '{' :: rest => parseJsonMembers fuel (skipWs rest)
    | '[' :: rest => parseJsonElements fuel (skipWs rest)
    | _ => scanNumber s

/-- Parse an object body after `{` (possibly empty). -/
def parseJsonMembers : Nat → List Char → Option (List Char)
  | 0, _ => none
  | fuel + 1, s =>
    match s with
    | '}' :: rest => some rest
    | _ => parseJsonMemberList fuel s

/-- Parse a non-empty comma-separated member list and the closing `}`. -/
def parseJsonMemberList : Nat → List Char → Option (List Char)
  | 0, _ => none
  | fuel + 1, s =>
    match s with
    | '"' :: rest =>
      match scanStringRest rest with
      | none => none
      | some afterKey =>
        match skipWs afterKey with
        | ':' :: afterColon =>
          match parseJsonValue fuel (skipWs afterColon) with
          | none => none
          | some afterVal =>
            match skipWs afterVal with
            | ',' :: afterComma => parseJsonMemberList fuel (skipWs afterComma)
            | '}' :: rest₂ => some rest₂
            | _ => none
        | _ => none
    | _ => none

/-- Parse an array body after `[` (possibly empty). -/
def parseJsonElements : Nat → List Char → Option (List Char)
  | 0, _ => none
  | fuel + 1, s =>
    match s with
    | ']' :: rest => some rest
    | _ => parseJsonElementList fuel s

/-- Parse a non-empty comma-separated element list and the closing `]`. -/
def parseJsonElementList : Nat → List Char → Option (List Char)
  | 0, _ => none
  | fuel + 1, s =>
    match parseJsonValue fuel s with
    | none => none
    | some afterVal =>
      match skipWs afterVal with
      | ',' :: afterComma => parseJsonElementList fuel (skipWs afterComma)
      | ']' :: rest₂ => some rest₂
      | _ => none

end

/-- Models the external `encoding/json.Valid`: the input is exactly one
JSON value surrounded by optional whitespace. -/
def jsonValid (s : String) : Bool :=
  match parseJsonValue (4 * s.length + 16) (skipWs s.toList) with
  | some rest => (skipWs rest).isEmpty
  | none => false

/-- `ValidateInput(input)`: the input payload must be non-empty valid JSON
(`ErrInvalidRequestInput` otherwise). -/
def ValidateInput (input : String) : Option ErrKind :=
  if input.isEmpty then
    some .invalidRequestInput
  else if !jsonValid input then
    some .invalidRequestInput
  else
    none

/-- `ValidateOutput(code, output)`: result code 200 requires a non-empty
valid-JSON output, any other code requires an empty output; every failure
wraps `ErrInvalidResponse`. -/
def ValidateOutput (code : Nat) (output : String) : Option ErrKind :=
  if code == 200 && output.isEmpty then
    some .invalidResponse
  else if code != 200 && !output.isEmpty then
    some .invalidResponse
  else if !output.isEmpty && !jsonValid output then
    some .invalidResponse
  else
    none

/-- `ValidateRequest(serviceName, serviceFeeCap, providers, input, timeout,
repeated, repeatedFrequency, repeatedTotal)`: the creation-time request
validator. Checks name, fee cap, provider list and input, then requires
`timeout > 0` and, when `repeated`, a zero or `≥ timeout` frequency
(`ErrInvalidRepeatedFreq`) and a total of `-1` or positive
(`ErrInvalidRepeatedTotal`). -/
def ValidateRequest (serviceName : String) (serviceFeeCap : Coins)
    (providers : List AccAddress) (input : String) (timeout : Int)
    (repeated : Bool) (repeatedFrequency : Nat) (repeatedTotal : Int) :
    Option ErrKind :=
  match ValidateServiceName serviceName with
  | some e => some e
  | none =>
  match ValidateServiceFeeCap serviceFeeCap with
  | some e => some e
  | none =>
  match ValidateProvidersNoEmpty providers with
  | some e => some e
  | none =>
  match ValidateInput input with
  | some e => some e
  | none =>
  if timeout ≤ 0 then
    some .invalidTimeout
  else if repeated then
    if 0 < repeatedFrequency ∧ repeatedFrequency < uint64OfInt64 timeout then
      some .invalidRepeatedFreq
    else if repeatedTotal < -1 ∨ repeatedTotal = 0 then
      some .invalidRepeatedTotal
    else
      none
  else
    none

/-- `ValidateRequestContextUpdating(providers, serviceFeeCap, timeout,
repeatedFrequency, repeatedTotal)`: the update-time validator; zero/empty
fields mean "no change". Note the source wraps `ErrInvalidRepeatedFreq`
(not `ErrInvalidRepeatedTotal`) on the final `repeatedTotal < -1` check. -/
def ValidateRequestContextUpdating (providers : List AccAddress)
    (serviceFeeCap : Coins) (timeout : Int) (repeatedFrequency : Nat)
    (repeatedTotal : Int) : Option ErrKind :=
  match ValidateProvidersCanEmpty providers with
  | some e => some e
  | none =>
  match (if Coins.Empty serviceFeeCap then none
         else ValidateServiceFeeCap serviceFeeCap) with
  | some e => some e
  | none =>
  if timeout < 0 then
    some .invalidTimeout
  else if timeout ≠ 0 ∧ repeatedFrequency ≠ 0 ∧ repeatedFrequency < uint64OfInt64 timeout then
    some .invalidRepeatedFreq
  else if repeatedTotal < -1 then
    some .invalidRepeatedFreq
  else
    none

/-! ## Request-context states and their JSON unmarshalling
(`src/types/invocation.go`) -/

/-- A parsed JSON document, the abstraction level at which the external
`encoding/json.Unmarshal` hands data to the state enums: unmarshalling
into a `*string` succeeds exactly on the `jstr` case. -/
inductive JsonValue where
  | jnull
  | jbool (b : Bool)
  | jnum (n : Int)
  | jstr (s : String)
  | jarr (elems : List JsonValue)
  | jobj (fields : List (String × JsonValue))

/-- Models `json.Unmarshal(data, &s)` for a `string` target: succeeds only
when the document is a JSON string. -/
def jsonUnmarshalString : JsonValue → Option String
  | .jstr s => some s
  | _ => none

/-- Models the external `strings.ToLower`: lower-case every character. -/
def strToLower (s : String) : String :=
  String.mk (s.toList.map Char.toLower)

/-- `RequestContextState` is a byte enum: `RUNNING = 0x00`,
`PAUSED = 0x01`, `COMPLETED = 0x02`. -/
abbrev RequestContextState := Nat

/-- `RUNNING = 0x00`. -/
def RUNNING : RequestContextState := 0

/-- `PAUSED = 0x01`. -/
def PAUSED : RequestContextState := 1

/-- `COMPLETED = 0x02`. -/
def COMPLETED : RequestContextState := 2

/-- `StringToRequestContextStateMap` lookup. -/
def StringToRequestContextState (s : String) : Option RequestContextState :=
  if s = "running" then some RUNNING
  else if s = "paused" then some PAUSED
  else if s = "completed" then some COMPLETED
  else none

/-- `RequestContextStateFromString(str)`: case-insensitive lookup in
`StringToRequestContextStateMap`; unknown names produce an error. -/
def RequestContextStateFromString (str : String) :
    Except String RequestContextState :=
  match StringToRequestContextState (strToLower str) with
  | some state => .ok state
  | none => .error ("'" ++ str ++ "' is not a valid request context state")

/-- `RequestContextState.UnmarshalJSON(data)`: when `json.Unmarshal` into a
string fails the method returns `nil` and leaves the receiver unchanged;
otherwise the string is resolved via `RequestContextStateFromString`,
whose error (if any) is propagated. Returns the updated receiver and the
returned error. -/
def RequestContextState.unmarshalJSON (state : RequestContextState)
    (data : JsonValue) : RequestContextState × Option String :=
  match jsonUnmarshalString data with
  | none => (state, none)
  | some s =>
    match RequestContextStateFromString s with
    | .error e => (state, some e)
    | .ok bz => (bz, none)

/-- `RequestContextBatchState` is a byte enum: `BATCHRUNNING = 0x00`,
`BATCHCOMPLETED = 0x01`. -/
abbrev RequestContextBatchState := Nat

/-- `BATCHRUNNING = 0x00`. -/
def BATCHRUNNING : RequestContextBatchState := 0

/-- `BATCHCOMPLETED = 0x01`. -/
def BATCHCOMPLETED : RequestContextBatchState := 1

/-- `StringToRequestContextBatchStateMap` lookup. -/
def StringToRequestContextBatchState (s : String) :
    Option RequestContextBatchState :=
  if s = "running" then some BATCHRUNNING
  else if s = "completed" then some BATCHCOMPLETED
  else none

/-- `RequestContextBatchStateFromString(str)`: case-insensitive lookup in
`StringToRequestContextBatchStateMap`; unknown names produce an error. -/
def RequestContextBatchStateFromString (str : String) :
    Except String RequestContextBatchState :=
  match StringToRequestContextBatchState (strToLower str) with
  | some state => .ok state
  | none => .error ("'" ++ str ++ "' is not a valid request context batch state")

/-- `RequestContextBatchState.UnmarshalJSON(data)`: same shape as the
context-state unmarshaller — a failed `json.Unmarshal` into a string
yields `nil` and an unchanged receiver. -/
def RequestContextBatchState.unmarshalJSON (state : RequestContextBatchState)
    (data : JsonValue) : RequestContextBatchState × Option String :=
  match jsonUnmarshalString data with
  | none => (state, none)
  | some s =>
    match RequestContextBatchStateFromString s with
    | .error e => (state, some e)
    | .ok bz => (bz, none)

/-! ## The RequestContext record (`src/types/invocation.go`) -/

/-- `RequestContext`: the persistent record of one logical service call,
with the fields of the Go struct. -/
structure RequestContext where
  serviceName : String
  providers : List AccAddress
  consumer : AccAddress
  serviceFeeCap : Coins
  input : String
  moduleName : String
  timeout : Int
  repeatedFrequency : Nat
  repeatedTotal : Int
  batchCounter : Nat
  batchRequestCount : Nat
  batchResponseCount : Nat
  batchResponseThreshold : Nat
  responseThreshold : Nat
  superMode : Bool
  repeated : Bool
  batchState : RequestContextBatchState
  state : RequestContextState

/-- `RequestContext.Empty()`: reports whether the consumer address has
length zero (the source carries a `TODO: use rc.ID` comment here). -/
def RequestContext.Empty (rc : RequestContext) : Bool :=
  rc.consumer.length == 0

/-! ## Claim theorems -/

/-- C2: for every 32-byte transaction hash `h` and every `int64` message
index `i`, `SplitRequestContextID (GenerateRequestContextID h i)` succeeds
and returns exactly `(h, i)` — the context-ID encode/decode round-trips. -/
theorem splitRequestContextID_generateRequestContextID (h : List Nat) (i : Int)
    (hlen : h.length = 32) (hlo : -9223372036854775808 ≤ i)
    (hhi : i < 9223372036854775808) :
    SplitRequestContextID (GenerateRequestContextID h i) = some (h, i) :=
  contextID_roundtrip h i hlen hlo hhi

theorem splitRequestContextID_generateRequestContextID_witness :
    (List.replicate 32 (7 : Nat)).length = 32
      ∧ -9223372036854775808 ≤ (-5 : Int)
      ∧ (-5 : Int) < 9223372036854775808
      ∧ SplitRequestContextID (GenerateRequestContextID (List.replicate 32 7) (-5))
          = some (List.replicate 32 7, -5) :=
  ⟨by decide, by decide, by decide,
    splitRequestContextID_generateRequestContextID (List.replicate 32 7) (-5)
      (by decide) (by decide) (by decide)⟩

/-- C3: for every 40-byte context ID `c`, `uint64` batch counter `b`,
`int64` request height `ht` and `int16` batch index `idx`,
`SplitRequestID (GenerateRequestID c b ht idx)` succeeds and returns
exactly `(c, b, ht, idx)` — the request-ID encode/decode round-trips. -/
theorem splitRequestID_generateRequestID (c : List Nat) (b : Nat) (ht : Int)
    (idx : Int) (hlen : c.length = 40) (hb : b < 18446744073709551616)
    (hlo : -9223372036854775808 ≤ ht) (hhi : ht < 9223372036854775808)
    (ilo : -32768 ≤ idx) (ihi : idx < 32768) :
    SplitRequestID (GenerateRequestID c b ht idx) = some (c, b, ht, idx) :=
  requestID_roundtrip c b ht idx hlen hb hlo hhi ilo ihi

theorem splitRequestID_generateRequestID_witness :
    (List.replicate 40 (1 : Nat)).length = 40
      ∧ (3 : Nat) < 18446744073709551616
      ∧ -9223372036854775808 ≤ (100 : Int)
      ∧ (100 : Int) < 9223372036854775808
      ∧ -32768 ≤ (-2 : Int)
      ∧ (-2 : Int) < 32768
      ∧ SplitRequestID (GenerateRequestID (List.replicate 40 1) 3 100 (-2))
          = some (List.replicate 40 1, 3, 100, -2) :=
  ⟨by decide, by decide, by decide, by decide, by decide, by decide,
    splitRequestID_generateRequestID (List.replicate 40 1) 3 100 (-2)
      (by decide) (by decide) (by decide) (by decide) (by decide) (by decide)⟩

/-- C4: `GenerateRequestContextID` is injective on 32-byte hashes paired
with `int64` message indices, and `GenerateRequestID` at a fixed 40-byte
context ID, batch counter and request height is injective in the `int16`
batch-local index. -/
theorem generateIDs_injective :
    (∀ (h₁ : List Nat) (i₁ : Int) (h₂ : List Nat) (i₂ : Int),
      h₁.length = 32 → h₂.length = 32 →
      -9223372036854775808 ≤ i₁ → i₁ < 9223372036854775808 →
      -9223372036854775808 ≤ i₂ → i₂ < 9223372036854775808 →
      (h₁, i₁) ≠ (h₂, i₂) →
      GenerateRequestContextID h₁ i₁ ≠ GenerateRequestContextID h₂ i₂)
    ∧ (∀ (c : List Nat) (b : Nat) (ht : Int) (idx₁ idx₂ : Int),
      c.length = 40 → b < 18446744073709551616 →
      -9223372036854775808 ≤ ht → ht < 9223372036854775808 →
      -32768 ≤ idx₁ → idx₁ < 32768 → -32768 ≤ idx₂ → idx₂ < 32768 →
      idx₁ ≠ idx₂ →
      GenerateRequestID c b ht idx₁ ≠ GenerateRequestID c b ht idx₂) := by
  constructor
  · intro h₁ i₁ h₂ i₂ hl₁ hl₂ lo₁ hi₁ lo₂ hi₂ hne heq
    have hsplit := congrArg SplitRequestContextID heq
    rw [contextID_roundtrip h₁ i₁ hl₁ lo₁ hi₁,
      contextID_roundtrip h₂ i₂ hl₂ lo₂ hi₂] at hsplit
    exact hne (Option.some.inj hsplit)
  · intro c b ht idx₁ idx₂ hlen hb hlo hhi lo₁ hi₁ lo₂ hi₂ hne heq
    have hsplit := congrArg SplitRequestID heq
    rw [requestID_roundtrip c b ht idx₁ hlen hb hlo hhi lo₁ hi₁,
      requestID_roundtrip c b ht idx₂ hlen hb hlo hhi lo₂ hi₂] at hsplit
    exact hne (congrArg (fun p => p.2.2.2) (Option.some.inj hsplit))

theorem generateIDs_injective_witness :
    GenerateRequestContextID (List.replicate 32 0) 0
        ≠ GenerateRequestContextID (List.replicate 32 0) 1
      ∧ GenerateRequestID (List.replicate 40 0) 1 5 0
          ≠ GenerateRequestID (List.replicate 40 0) 1 5 1 :=
  ⟨generateIDs_injective.1 (List.replicate 32 0) 0 (List.replicate 32 0) 1
      (by decide) (by decide) (by decide) (by decide) (by decide) (by decide)
      (by decide),
    generateIDs_injective.2 (List.replicate 40 0) 1 5 0 1
      (by decide) (by decide) (by decide) (by decide) (by decide) (by decide)
      (by decide) (by decide) (by decide)⟩

/-- C8: `ValidateServiceName` accepts exactly the strings matching
`^[A-Za-z][A-Za-z0-9_-]*$` whose byte length is at most 70, and every
rejection carries `ErrInvalidServiceName`. -/
theorem validateServiceName_characterization (name : String) :
    (ValidateServiceName name = none ↔
      ((∃ c cs, name.toList = c :: cs ∧ c.isAlpha = true
          ∧ ∀ d ∈ cs, d.isAlpha = true ∨ d.isDigit = true ∨ d = '_' ∨ d = '-')
        ∧ name.utf8ByteSize ≤ 70))
    ∧ (ValidateServiceName name = none
        ∨ ValidateServiceName name = some ErrKind.invalidServiceName) := by
  have hmatch : reServiceNameMatch name = true ↔
      ∃ c cs, name.toList = c :: cs ∧ c.isAlpha = true
        ∧ ∀ d ∈ cs, d.isAlpha = true ∨ d.isDigit = true ∨ d = '_' ∨ d = '-' := by
    cases hl : name.data with
    | nil =>
      have htl : name.toList = [] := hl
      simp [reServiceNameMatch, hl, htl]
    | cons c cs =>
      have htl : name.toList = c :: cs := hl
      simp only [reServiceNameMatch, hl, htl, List.all_eq_true, Bool.and_eq_true,
        Bool.or_eq_true, decide_eq_true_eq, List.cons.injEq]
      constructor
      · rintro ⟨h₁, h₂⟩
        exact ⟨c, cs, ⟨rfl, rfl⟩, h₁, fun d hd => by have := h₂ d hd; tauto⟩
      · rintro ⟨c₁, cs₁, ⟨rfl, rfl⟩, h₁, h₂⟩
        exact ⟨h₁, fun d hd => by have := h₂ d hd; tauto⟩
  constructor
  · rw [ValidateServiceName, MaxNameLength]
    split
    · rename_i hcond
      simp only [Bool.or_eq_true, Bool.not_eq_true', decide_eq_true_eq] at hcond
      constructor
      · intro hfalse; exact absurd hfalse (by simp)
      · rintro ⟨hm, hle⟩
        rcases hcond with hcond | hcond
        · exact absurd (hmatch.mpr hm) (by simp [hcond])
        · omega
    · rename_i hcond
      simp only [Bool.or_eq_true, Bool.not_eq_true', decide_eq_true_eq,
        not_or, Bool.not_eq_false] at hcond
      simp only [true_iff]
      exact ⟨hmatch.mp hcond.1, by omega⟩
  · rw [ValidateServiceName]
    split
    · exact Or.inr rfl
    · exact Or.inl rfl

/-- C9: for both `RequestContextState` and `RequestContextBatchState`,
`UnmarshalJSON` on input that is not a JSON string returns a `nil` error
and leaves the receiver unchanged; on a JSON string it errors exactly when
the (lower-cased) string names no known state. -/
theorem state_unmarshalJSON_silent_on_nonstring :
    (∀ (st : RequestContextState) (data : JsonValue),
      jsonUnmarshalString data = none →
      RequestContextState.unmarshalJSON st data = (st, none))
    ∧ (∀ (st : RequestContextState) (s : String),
      (RequestContextState.unmarshalJSON st (.jstr s)).2 ≠ none ↔
        StringToRequestContextState (strToLower s) = none)
    ∧ (∀ (st : RequestContextBatchState) (data : JsonValue),
      jsonUnmarshalString data = none →
      RequestContextBatchState.unmarshalJSON st data = (st, none))
    ∧ (∀ (st : RequestContextBatchState) (s : String),
      (RequestContextBatchState.unmarshalJSON st (.jstr s)).2 ≠ none ↔
        StringToRequestContextBatchState (strToLower s) = none) := by
  refine ⟨?_, ?_, ?_, ?_⟩
  · intro st data hdata
    rw [RequestContextState.unmarshalJSON, hdata]
  · intro st s
    rw [RequestContextState.unmarshalJSON]
    cases hlk : StringToRequestContextState (strToLower s) with
    | none => simp [jsonUnmarshalString, RequestContextStateFromString, hlk]
    | some v => simp [jsonUnmarshalString, RequestContextStateFromString, hlk]
  · intro st data hdata
    rw [RequestContextBatchState.unmarshalJSON, hdata]
  · intro st s
    rw [RequestContextBatchState.unmarshalJSON]
    cases hlk : StringToRequestContextBatchState (strToLower s) with
    | none => simp [jsonUnmarshalString, RequestContextBatchStateFromString, hlk]
    | some v => simp [jsonUnmarshalString, RequestContextBatchStateFromString, hlk]

theorem state_unmarshalJSON_silent_on_nonstring_witness :
    RequestContextState.unmarshalJSON RUNNING (.jnum 3) = (RUNNING, none)
      ∧ (RequestContextState.unmarshalJSON RUNNING (.jstr "bogus")).2 ≠ none
      ∧ RequestContextBatchState.unmarshalJSON BATCHRUNNING
          (.jobj [("a", .jnum 1)]) = (BATCHRUNNING, none)
      ∧ (RequestContextBatchState.unmarshalJSON BATCHRUNNING (.jstr "paused")).2 ≠ none :=
  ⟨state_unmarshalJSON_silent_on_nonstring.1 RUNNING (.jnum 3) rfl,
    (state_unmarshalJSON_silent_on_nonstring.2.1 RUNNING "bogus").mpr (by decide),
    state_unmarshalJSON_silent_on_nonstring.2.2.1 BATCHRUNNING
      (.jobj [("a", .jnum 1)]) rfl,
    (state_unmarshalJSON_silent_on_nonstring.2.2.2 BATCHRUNNING "paused").mpr
      (by decide)⟩

/-- C10: `RequestContext.Empty` is true exactly when the consumer address
has length zero, and depends on no other field. -/
theorem requestContext_empty_iff_consumer :
    (∀ rc : RequestContext, rc.Empty = true ↔ rc.consumer.length = 0)
    ∧ (∀ rc₁ rc₂ : RequestContext, rc₁.consumer = rc₂.consumer →
        rc₁.Empty = rc₂.Empty) := by
  constructor
  · intro rc
    simp [RequestContext.Empty]
  · intro rc₁ rc₂ hcons
    simp [RequestContext.Empty, hcons]

/-- A request context with every parameter, counter and state populated but
an empty consumer address, used to witness `RequestContext.Empty`. -/
def populatedNoConsumer : RequestContext :=
  { serviceName := "svc"
    providers := [[1, 2], [3]]
    consumer := []
    serviceFeeCap := [⟨"atom", 5⟩]
    input := "\x7b\x7d"
    moduleName := "oracle"
    timeout := 50
    repeatedFrequency := 120
    repeatedTotal := 10
    batchCounter := 3
    batchRequestCount := 2
    batchResponseCount := 1
    batchResponseThreshold := 1
    responseThreshold := 1
    superMode := true
    repeated := true
    batchState := BATCHCOMPLETED
    state := PAUSED }

/-- The same context with a non-empty consumer address. -/
def populatedWithConsumer : RequestContext :=
  { populatedNoConsumer with consumer := [9, 9] }

theorem requestContext_empty_iff_consumer_witness :
    populatedNoConsumer.Empty = true
      ∧ populatedWithConsumer.Empty = false
      ∧ populatedNoConsumer.Empty
          = ({ populatedNoConsumer with serviceName := "other" } : RequestContext).Empty :=
  ⟨(requestContext_empty_iff_consumer.1 populatedNoConsumer).mpr rfl,
    by
      have h := requestContext_empty_iff_consumer.1 populatedWithConsumer
      simp [populatedWithConsumer, populatedNoConsumer] at h
      simpa using h,
    requestContext_empty_iff_consumer.2 populatedNoConsumer
      { populatedNoConsumer with serviceName := "other" } rfl⟩

/-- C5: `ValidateOutput code output` accepts exactly when code 200 comes
with a non-empty valid-JSON output or a non-200 code comes with an empty
output; every rejection carries `ErrInvalidResponse`. In particular,
code 200 with empty output and code 400 with non-empty output are
rejected, and code 200 with output `{"x":1}` is accepted. -/
theorem validateOutput_characterization :
    (∀ (code : Nat) (output : String),
      ValidateOutput code output = none ↔
        ((code = 200 ∧ output ≠ "" ∧ jsonValid output = true)
          ∨ (code ≠ 200 ∧ output = "")))
    ∧ (∀ (code : Nat) (output : String),
        ValidateOutput code output = none
          ∨ ValidateOutput code output = some ErrKind.invalidResponse)
    ∧ ValidateOutput 200 "" = some ErrKind.invalidResponse
    ∧ ValidateOutput 400 "\x7b\x7d" = some ErrKind.invalidResponse
    ∧ ValidateOutput 200 "\x7b\"x\":1\x7d" = none := by
  refine ⟨?_, ?_, rfl, rfl, rfl⟩
  · intro code output
    rcases eq_or_ne output "" with ho | ho
    · have hoe : output.isEmpty = true := (String.isEmpty_iff output).mpr ho
      rcases eq_or_ne code 200 with hc | hc <;>
        simp [ValidateOutput, hoe, hc, ho, beq_iff_eq, bne_iff_ne] <;>
        decide
    · have hoe : output.isEmpty = false := by
        rw [Bool.eq_false_iff]
        intro he
        exact ho ((String.isEmpty_iff output).mp he)
      rcases eq_or_ne code 200 with hc | hc
      · cases hj : jsonValid output <;>
          simp [ValidateOutput, hoe, hc, ho, hj, beq_iff_eq, bne_iff_ne]
      · simp [ValidateOutput, hoe, hc, ho, beq_iff_eq, bne_iff_ne]
  · intro code output
    rw [ValidateOutput]
    split_ifs <;> simp

/-- `ValidateProvidersCanEmpty` accepts exactly the provider lists of at
most `MaxProvidersNum` entries whose rendered addresses are pairwise
distinct (the empty list included). -/
theorem validateProvidersCanEmpty_iff (providers : List AccAddress) :
    ValidateProvidersCanEmpty providers = none ↔
      (providers.length ≤ 10 ∧ (providers.map AccAddress.toStr).Nodup) := by
  rw [ValidateProvidersCanEmpty, MaxProvidersNum]
  split_ifs with h1 h2
  · exact iff_of_false (by simp) (by rintro ⟨hle, _⟩; omega)
  · rw [checkDuplicateProviders]
    split_ifs with hd
    · refine iff_of_false (by simp) ?_
      rintro ⟨_, hnd⟩
      rw [(hasDuplicate_eq_false_iff _).mpr hnd] at hd
      cases hd
    · rw [Bool.not_eq_true] at hd
      exact iff_of_true rfl ⟨by omega, (hasDuplicate_eq_false_iff _).mp hd⟩
  · have hnil : providers = [] := List.length_eq_zero.mp (by omega)
    exact iff_of_true rfl ⟨by omega, by simp [hnil]⟩

/-- C6: `ValidateRequestContextUpdating` accepts exactly when the provider
list has at most 10 pairwise-distinct entries (possibly empty), the fee
cap is empty or a valid coin set, `timeout ≥ 0`, the frequency is zero,
or the timeout is zero, or the frequency is at least the timeout, and the
total is at least `-1`. -/
theorem validateRequestContextUpdating_accepts_iff (providers : List AccAddress)
    (serviceFeeCap : Coins) (timeout : Int) (repeatedFrequency : Nat)
    (repeatedTotal : Int)
    (hto : timeout < 9223372036854775808)
    (hfq : repeatedFrequency < 18446744073709551616) :
    ValidateRequestContextUpdating providers serviceFeeCap timeout
        repeatedFrequency repeatedTotal = none ↔
      (providers.length ≤ 10
        ∧ (providers.map AccAddress.toStr).Nodup
        ∧ (serviceFeeCap = [] ∨ Coins.IsValid serviceFeeCap = true)
        ∧ 0 ≤ timeout
        ∧ (timeout = 0 ∨ repeatedFrequency = 0 ∨ timeout ≤ (repeatedFrequency : Int))
        ∧ -1 ≤ repeatedTotal) := by
  rw [ValidateRequestContextUpdating]
  cases hp : ValidateProvidersCanEmpty providers with
  | some e =>
    refine iff_of_false (by simp) ?_
    rintro ⟨h1, h2, _⟩
    have := (validateProvidersCanEmpty_iff providers).mpr ⟨h1, h2⟩
    rw [hp] at this
    cases this
  | none =>
    have hpv := (validateProvidersCanEmpty_iff providers).mp hp
    cases hc : (if Coins.Empty serviceFeeCap then none
        else ValidateServiceFeeCap serviceFeeCap) with
    | some e =>
      refine iff_of_false (by simp) ?_
      rintro ⟨_, _, hcap, _⟩
      rcases hcap with hcap | hcap
      · rw [if_pos (by simp [Coins.Empty, hcap])] at hc
        cases hc
      · by_cases he : Coins.Empty serviceFeeCap
        · rw [if_pos he] at hc; cases hc
        · rw [if_neg he, ValidateServiceFeeCap, hcap] at hc
          simp at hc
    | none =>
      have hcap : serviceFeeCap = [] ∨ Coins.IsValid serviceFeeCap = true := by
        by_cases he : Coins.Empty serviceFeeCap
        · exact Or.inl (by simpa [Coins.Empty] using he)
        · rw [if_neg he, ValidateServiceFeeCap] at hc
          refine Or.inr ?_
          by_contra hv
          rw [Bool.not_eq_true] at hv
          rw [hv] at hc
          cases hc
      by_cases h1 : timeout < 0
      · rw [if_pos h1]
        exact iff_of_false (by simp) (by rintro ⟨_, _, _, h0, _⟩; omega)
      · rw [if_neg h1]
        have hcast : uint64OfInt64 timeout = timeout.toNat := by
          unfold uint64OfInt64
          omega
        rw [hcast]
        split_ifs with h2 h3
        · refine iff_of_false (by simp) ?_
          rintro ⟨_, _, _, _, hfr, _⟩
          rcases h2 with ⟨hne, hfne, hlt⟩
          omega
        · refine iff_of_false (by simp) ?_
          rintro ⟨_, _, _, _, _, htot⟩
          omega
        · refine iff_of_true rfl ⟨hpv.1, hpv.2, hcap, by omega, ?_, by omega⟩
          by_cases hz : timeout = 0
          · exact Or.inl hz
          · by_cases hfz : repeatedFrequency = 0
            · exact Or.inr (Or.inl hfz)
            · refine Or.inr (Or.inr ?_)
              have := fun h => h2 ⟨hz, hfz, h⟩
              omega

theorem validateRequestContextUpdating_accepts_iff_witness :
    (50 : Int) < 9223372036854775808
      ∧ (120 : Nat) < 18446744073709551616
      ∧ (ValidateRequestContextUpdating [[1], [2]] [⟨"atom", 5⟩] 50 120 (-1) = none ↔
          (([[1], [2]] : List AccAddress).length ≤ 10
            ∧ (([[1], [2]] : List AccAddress).map AccAddress.toStr).Nodup
            ∧ (([⟨"atom", 5⟩] : Coins) = [] ∨ Coins.IsValid [⟨"atom", 5⟩] = true)
            ∧ (0 : Int) ≤ 50
            ∧ ((50 : Int) = 0 ∨ (120 : Nat) = 0 ∨ (50 : Int) ≤ ((120 : Nat) : Int))
            ∧ (-1 : Int) ≤ -1)) :=
  ⟨by decide, by decide,
    validateRequestContextUpdating_accepts_iff [[1], [2]] [⟨"atom", 5⟩] 50 120 (-1)
      (by decide) (by decide)⟩

/-- C1: under individually valid service name, fee cap, provider list and
input, `ValidateRequest` accepts exactly when `timeout > 0` and, if
repeated, the frequency is zero or at least the timeout and the total is
`-1` or positive. -/
theorem validateRequest_accepts_iff (serviceName : String) (serviceFeeCap : Coins)
    (providers : List AccAddress) (input : String) (timeout : Int)
    (repeated : Bool) (repeatedFrequency : Nat) (repeatedTotal : Int)
    (hname : ValidateServiceName serviceName = none)
    (hcap : ValidateServiceFeeCap serviceFeeCap = none)
    (hprov : ValidateProvidersNoEmpty providers = none)
    (hin : ValidateInput input = none)
    (hto : timeout < 9223372036854775808)
    (hfq : repeatedFrequency < 18446744073709551616) :
    ValidateRequest serviceName serviceFeeCap providers input timeout repeated
        repeatedFrequency repeatedTotal = none ↔
      (0 < timeout ∧ (repeated = true →
        ((repeatedFrequency = 0 ∨ timeout ≤ (repeatedFrequency : Int))
          ∧ (repeatedTotal = -1 ∨ 0 < repeatedTotal)))) := by
  simp only [ValidateRequest, hname, hcap, hprov, hin]
  by_cases hpos : timeout ≤ 0
  · rw [if_pos hpos]
    exact iff_of_false (by simp) (by rintro ⟨h0, _⟩; omega)
  · rw [if_neg hpos]
    have hcast : uint64OfInt64 timeout = timeout.toNat := by
      unfold uint64OfInt64
      omega
    cases repeated with
    | false => simp; omega
    | true =>
      rw [if_pos rfl, hcast]
      split_ifs with hf ht
      · refine iff_of_false (by simp) ?_
        rintro ⟨h0, himp⟩
        rcases himp rfl with ⟨hfr, _⟩
        rcases hf with ⟨hf1, hf2⟩
        omega
      · refine iff_of_false (by simp) ?_
        rintro ⟨h0, himp⟩
        rcases himp rfl with ⟨_, htot⟩
        omega
      · refine iff_of_true rfl ⟨by omega, fun _ => ⟨?_, by omega⟩⟩
        by_cases hfz : repeatedFrequency = 0
        · exact Or.inl hfz
        · refine Or.inr ?_
          have := fun h => hf ⟨by omega, h⟩
          omega

theorem validateRequest_accepts_iff_witness :
    ValidateServiceName "abc" = none
      ∧ ValidateServiceFeeCap [] = none
      ∧ ValidateProvidersNoEmpty [[1]] = none
      ∧ ValidateInput "\x7b\x7d" = none
      ∧ (10 : Int) < 9223372036854775808
      ∧ (0 : Nat) < 18446744073709551616
      ∧ (ValidateRequest "abc" [] [[1]] "\x7b\x7d" 10 true 0 (-1) = none ↔
          ((0 : Int) < 10 ∧ (true = true →
            (((0 : Nat) = 0 ∨ (10 : Int) ≤ ((0 : Nat) : Int))
              ∧ ((-1 : Int) = -1 ∨ (0 : Int) < -1))))) :=
  ⟨rfl, rfl, rfl, rfl, by decide, by decide,
    validateRequest_accepts_iff "abc" [] [[1]] "\x7b\x7d" 10 true 0 (-1)
      rfl rfl rfl rfl (by decide) (by decide)⟩

/-- C7: at creation `ValidateRequest` rejects a bad repeated total with
`ErrInvalidRepeatedTotal` as claimed, but at update
`ValidateRequestContextUpdating` wraps `ErrInvalidRepeatedFreq` — not
`ErrInvalidRepeatedTotal` — when `repeatedTotal < -1`, contradicting the
claimed error kind. -/
theorem repeatedTotal_error_kind_mismatch :
    ValidateRequest "abc" [] [[1]] "\x7b\x7d" 10 true 0 0
        = some ErrKind.invalidRepeatedTotal
      ∧ ValidateRequestContextUpdating [] [] 0 0 (-2)
          = some ErrKind.invalidRepeatedFreq
      ∧ ErrKind.invalidRepeatedFreq ≠ ErrKind.invalidRepeatedTotal :=
  ⟨rfl, rfl, by decide⟩

end Service
